import Mathlib

/-!
Shallow embedding of the `client-functions` library (Deno/TypeScript):
`mod.ts` (handler registration, content-addressed naming, the mtime-keyed
cache), `build.ts` (build orchestration and output-directory cleanup) and
`client.ts` (the browser-side lazy dispatch proxy).

Filesystem reads, the persisted cache file and the external transpiler are
modelled as explicit parameters; the module-level mutable state of `mod.ts`
is threaded as an explicit `GlobalState`.
-/

namespace ClientFunctions

/-- Association-list update with JavaScript `Map.set` / object-key assignment
semantics: overwrite an existing binding in place, otherwise append. -/
def setEntry {α β : Type} [BEq α] (k : α) (v : β) : List (α × β) → List (α × β)
  | [] => [(k, v)]
  | (k', v') :: rest => if k' == k then (k, v) :: rest else (k', v') :: setEntry k v rest

/-- JavaScript `ToInt32`: wrap an integer into the signed 32-bit range. -/
def toInt32 (n : Int) : Int := (n + 2147483648) % 4294967296 - 2147483648

/-- One iteration of the hash loop at `mod.ts` lines 171-173:
`hash = ((hash << 5) - hash) + str.charCodeAt(i); hash |= 0;`.
`hash << 5` wraps to 32 bits on its own before the subtraction. -/
def jsHashStep (h : Int) (c : Char) : Int :=
  toInt32 (toInt32 (h * 32) - h + (c.toNat : Int))

/-- The 32-bit rolling hash of `mod.ts` lines 169-174 over the function's
serialized source text (folded over its character sequence). -/
def jsHash (s : String) : Int := s.data.foldl jsHashStep 0

/-- The hash as the spec words it: per-character accumulation
`hash * 31 + charCode` with 32-bit wraparound. -/
def specHashStep (h : Int) (c : Char) : Int := toInt32 (31 * h + (c.toNat : Int))

/-- Spec-worded form of the rolling hash, to be compared with `jsHash`. -/
def specHash (s : String) : Int := s.data.foldl specHashStep 0

/-- JavaScript `Number.prototype.toString(16)` for a non-negative integer:
lowercase hexadecimal digits. -/
def hexOfNat (n : Nat) : String := String.mk (Nat.toDigits 16 n)

/-- `mod.ts` line 175: the resolved id computed on a cache miss. -/
def hashedFilename (fnName src : String) : String :=
  fnName ++ "_" ++ hexOfNat (jsHash src).natAbs

/-- A JavaScript value as far as the constructor's `typeof` check and
`Function.prototype.toString` are concerned. -/
inductive JsValue where
  | function (src : String)
  | other
deriving DecidableEq

/-- `Function.prototype.toString` of a function value. -/
def JsValue.src : JsValue → String
  | .function s => s
  | .other => ""

/-- One file's entry in the persisted cache (`mod.ts` lines 26-32). -/
structure CacheFileEntry where
  mtimeMs : Int
  handlers : List (String × String)
deriving DecidableEq

/-- `ClientFunctionCacheV1` from `mod.ts` lines 24-33. -/
structure ClientFunctionCacheV1 where
  version : Nat
  files : List (String × CacheFileEntry)
deriving DecidableEq

/-- The wrapper object built by the `ClientFunction` constructor; `props`
holds the dynamically-named property written at `mod.ts` lines 190-192. -/
structure ClientFunctionWrapper where
  fnName : String
  fn : JsValue
  filename : String
  sourceFileUrl : Option String
  props : List (String × String)
deriving DecidableEq

/-- The module-level mutable state of `mod.ts`; `hashCount` is a ghost
counter of entries into the hashing branch (the log at line 165). -/
structure GlobalState where
  cacheLoaded : Bool
  cacheDirty : Bool
  cacheFlushScheduled : Bool
  cache : ClientFunctionCacheV1
  sourceFileMtimeMemo : List (String × Option Int)
  handlers : List (JsValue × ClientFunctionWrapper)
  importsBySourceFileUrl : List (String × List (String × String))
  hashCount : Nat
deriving DecidableEq

/-- The process-initial state of `mod.ts` (lines 36-43, 79, 102, 107). -/
def initialState : GlobalState :=
  { cacheLoaded := false, cacheDirty := false, cacheFlushScheduled := false,
    cache := { version := 1, files := [] }, sourceFileMtimeMemo := [],
    handlers := [], importsBySourceFileUrl := [], hashCount := 0 }

/-- `loadCacheOnce`, `mod.ts` lines 45-62. `cacheFile` is the parse of the
cache file at `CACHE_PATH`: `none` models a missing or invalid JSON document
(the `catch` path); the `version === 1` check is explicit. -/
def loadCacheOnce (cacheFile : Option ClientFunctionCacheV1) (st : GlobalState) : GlobalState :=
  if st.cacheLoaded then st
  else
    match cacheFile with
    | some parsed =>
      if parsed.version = 1 then { st with cacheLoaded := true, cache := parsed }
      else { st with cacheLoaded := true }
    | none => { st with cacheLoaded := true }

/-- `scheduleCacheFlush`, `mod.ts` lines 64-77: marks a flush as scheduled;
the queued microtask body runs outside the constructor and is not modelled. -/
def scheduleCacheFlush (st : GlobalState) : GlobalState :=
  if !st.cacheDirty || st.cacheFlushScheduled then st
  else { st with cacheFlushScheduled := true }

/-- `getSourceFileMtimeMs`, `mod.ts` lines 81-93. `fs` maps a source file URL
to its current mtime; `none` covers both a failing `statSync` and a null
`mtime` (the two paths that memoize `null`). -/
def getSourceFileMtimeMs (fs : String → Option Int) (sourceFileUrl : String)
    (st : GlobalState) : Option Int × GlobalState :=
  match st.sourceFileMtimeMemo.lookup sourceFileUrl with
  | some memo => (memo, st)
  | none =>
    (fs sourceFileUrl,
      { st with sourceFileMtimeMemo :=
          setEntry sourceFileUrl (fs sourceFileUrl) st.sourceFileMtimeMemo })

/-- `mod.ts` lines 150-157: reset the file's cache entry when its recorded
mtime differs from the current one, then look the handler name up. -/
def refreshAndLookup (fnName sourceFileUrl : String) (sourceMtimeMs : Int)
    (st : GlobalState) : Option String × GlobalState :=
  let needsReset : Bool :=
    match st.cache.files.lookup sourceFileUrl with
    | none => true
    | some entry => entry.mtimeMs != sourceMtimeMs
  let st1 :=
    if needsReset then
      scheduleCacheFlush { st with
        cache := { st.cache with
          files := setEntry sourceFileUrl ⟨sourceMtimeMs, []⟩ st.cache.files },
        cacheDirty := true }
    else st
  let cached :=
    match st1.cache.files.lookup sourceFileUrl with
    | some entry => entry.handlers.lookup fnName
    | none => none
  (cached, st1)

/-- `mod.ts` lines 145-159: the cached-filename lookup phase. Returns the
cached filename (if any), the source mtime (if read), and the new state. -/
def lookupPhase (fs : String → Option Int) (fnName : String)
    (sourceFileUrl : Option String) (st : GlobalState) :
    Option String × Option Int × GlobalState :=
  match sourceFileUrl with
  | none => (none, none, st)
  | some url =>
    match getSourceFileMtimeMs fs url st with
    | (none, st1) => (none, none, st1)
    | (some m, st1) =>
      match refreshAndLookup fnName url m st1 with
      | (cached, st2) => (cached, some m, st2)

/-- `mod.ts` lines 161-183: use the cached filename or hash the function's
serialized source, storing the fresh id back when a file entry applies. -/
def resolvePhase (fnName src : String) (sourceFileUrl : Option String)
    (cachedFilename : Option String) (sourceMtimeMs : Option Int)
    (st : GlobalState) : String × GlobalState :=
  match cachedFilename with
  | some c => (c, st)
  | none =>
    let resolved := hashedFilename fnName src
    let st1 := { st with hashCount := st.hashCount + 1 }
    match sourceFileUrl, sourceMtimeMs with
    | some url, some m =>
      let files :=
        match st1.cache.files.lookup url with
        | some entry =>
          setEntry url { entry with handlers := setEntry fnName resolved entry.handlers }
            st1.cache.files
        | none => setEntry url ⟨m, [(fnName, resolved)]⟩ st1.cache.files
      (resolved,
        scheduleCacheFlush { st1 with
          cache := { st1.cache with files := files }, cacheDirty := true })
    | _, _ => (resolved, st1)

/-- `mod.ts` lines 185-196: build the wrapper (with its dynamically-named
invocation-string property) and record it in the handler map and in the
registry of imports keyed by the defining file (or the shared global key). -/
def registerPhase (fnName src resolved : String) (sourceFileUrl : Option String)
    (st : GlobalState) : ClientFunctionWrapper × GlobalState :=
  let w : ClientFunctionWrapper :=
    { fnName := fnName, fn := .function src, filename := resolved,
      sourceFileUrl := sourceFileUrl,
      props := [(fnName, "handlers." ++ resolved ++ "(this, event)")] }
  let key := sourceFileUrl.getD "__global__"
  let registry := (st.importsBySourceFileUrl.lookup key).getD []
  (w, { st with
    handlers := setEntry (JsValue.function src) w st.handlers,
    importsBySourceFileUrl :=
      setEntry key (setEntry fnName resolved registry) st.importsBySourceFileUrl })

/-- The `ClientFunction` constructor, `mod.ts` lines 138-197. -/
def constructClientFunction (fs : String → Option Int)
    (cacheFile : Option ClientFunctionCacheV1) (fnName : String) (fn : JsValue)
    (sourceFileUrl : Option String) (st : GlobalState) :
    Except String ClientFunctionWrapper × GlobalState :=
  match fn with
  | .other => (.error "ClientFunction requires a function", st)
  | .function src =>
    match lookupPhase fs fnName sourceFileUrl (loadCacheOnce cacheFile st) with
    | (cached, mt, st2) =>
      match resolvePhase fnName src sourceFileUrl cached mt st2 with
      | (resolved, st3) =>
        match registerPhase fnName src resolved sourceFileUrl st3 with
        | (w, st4) => (.ok w, st4)

/-- The import-registry view used by `buildCode` (`mod.ts` lines 109-116,
220): the registry keyed by the wrapper's defining file URL, or the shared
`__global__` key when the wrapper has none. -/
def getImportRegistryView (imports : List (String × List (String × String)))
    (sourceFileUrl : Option String) : List (String × String) :=
  (imports.lookup (sourceFileUrl.getD "__global__")).getD []

/-- The option object handed to the external transpiler. -/
structure TransformOptions where
  loader : String
  format : String
  target : List String
  sourcemap : Bool
  minify : Bool
deriving DecidableEq

/-- The options at `mod.ts` lines 236-240. `minify` is not among the keys
passed there, so the transpiler's default (`false`) applies. -/
def buildCodeTransformOptions : TransformOptions :=
  { loader := "ts", format := "esm", target := ["esnext"], sourcemap := false,
    minify := false }

/-- `mod.ts` lines 221-228: synthesized import lines, skipping the wrapper's
own name or resolved id (self-import exclusion). -/
def importLinesFor (registry : List (String × String))
    (w : ClientFunctionWrapper) : List String :=
  (registry.filter fun nf => !(nf.1 == w.fnName) && !(nf.2 == w.filename)).map
    fun nf => "import \x7b default as " ++ nf.1 ++ " \x7d from \"./" ++ nf.2 ++ ".js\";"

/-- The composite module text of `mod.ts` lines 230-234. -/
def functionCodeOf (imports : List (String × List (String × String)))
    (w : ClientFunctionWrapper) : String :=
  String.intercalate "\n" (importLinesFor (getImportRegistryView imports w.sourceFileUrl) w)
    ++ "\n" ++ "export default " ++ w.fn.src

/-- `buildCode`, `mod.ts` lines 217-247. The external transpiler is the
`transform` parameter; `Except.error` models a rejected transform, and the
`catch` at lines 241-244 falls back to the untransformed composite text.
Note the declaration takes no minify parameter, exactly as in the source. -/
def buildCode (transform : String → TransformOptions → Except String String)
    (imports : List (String × List (String × String)))
    (w : ClientFunctionWrapper) : String :=
  match transform (functionCodeOf imports w) buildCodeTransformOptions with
  | .ok code => code
  | .error _ => functionCodeOf imports w

/-- One handler's build step at `build.ts` lines 179-201: skip when the
output file already exists, else emit `buildCode`'s result. `build.ts`
line 193 passes `minify` to `buildCode`, whose declaration takes no
parameter, so the argument is dropped at the call site. -/
def buildHandlerFile (minify : Bool)
    (transform : String → TransformOptions → Except String String)
    (imports : List (String × List (String × String)))
    (handler : ClientFunctionWrapper) (fileExists : Bool) : Option String :=
  if fileExists then none else some (buildCode transform imports handler)

/-- A directory entry as seen by the cleanup scan (`Deno.DirEntry`). -/
structure DirEntry where
  name : String
  isFile : Bool
deriving DecidableEq

/-- JavaScript `String.prototype.endsWith`, on character sequences. -/
def strEndsWith (s suffix : String) : Bool := suffix.data.isSuffixOf s.data

/-- JavaScript `name.split(".")[0]`: the portion before the first dot. -/
def baseName (s : String) : String := String.mk (s.data.takeWhile (fun c => c != '.'))

/-- The keep-condition of the cleanup loop at `build.ts` lines 213-221: an
entry is removed exactly when it is a file, its name ends in `.js`, and its
base name is not in the produced list. -/
def cleanupKeeps (files : List String) (e : DirEntry) : Bool :=
  !(e.isFile && strEndsWith e.name ".js" && !(files.contains (baseName e.name)))

/-- The cleanup pass of `build.ts` lines 212-222 over the output directory. -/
def cleanupDir (entries : List DirEntry) (files : List String) : List DirEntry :=
  entries.filter (cleanupKeeps files)

/-- Browser-side dispatcher state. `target` is the proxy's target object
(names filled in once a load resolves); `moduleMap` is the host's module
map — dynamic `import` is memoized per specifier by ECMAScript module-map
semantics, so it is part of the observable load state; `nextLoad` counts
module loads initiated so far and doubles as the next fresh load id. -/
structure DispatchState where
  target : List (String × Nat)
  moduleMap : List (String × Nat)
  nextLoad : Nat
deriving DecidableEq

/-- A property key: a string, or a language-level symbol. -/
inductive PropKey where
  | str (s : String)
  | symbol
deriving DecidableEq

/-- What the proxy `get` trap hands back: nothing (symbol key), a callable
closed over the cached function, or a callable awaiting an in-flight load. -/
inductive GetResult where
  | notFound
  | cached (v : Nat)
  | pending (loadId : Nat)
deriving DecidableEq

/-- Dynamic `import(spec)`: yields the (possibly already in-flight) load
for `spec`, initiating a new one only when the module map has none. -/
def dynamicImport (spec : String) (st : DispatchState) : Nat × DispatchState :=
  match st.moduleMap.lookup spec with
  | some loadId => (loadId, st)
  | none =>
    (st.nextLoad,
      { st with
          moduleMap := setEntry spec st.nextLoad st.moduleMap
          nextLoad := st.nextLoad + 1 })

/-- The proxy `get` trap of `client.ts` lines 30-55. -/
def proxyGet (basePath : String) (prop : PropKey) (st : DispatchState) :
    GetResult × DispatchState :=
  match prop with
  | .symbol => (.notFound, st)
  | .str name =>
    match st.target.lookup name with
    | some v => (.cached v, st)
    | none =>
      match dynamicImport (basePath ++ "/" ++ name ++ ".js") st with
      | (loadId, st1) => (.pending loadId, st1)

/-- What invoking the callable returned by the `get` trap yields once loads
resolve: a cached function is called directly, a pending one awaits its
load; `resolve` maps a load id to the loaded module's default export. -/
def invokeResult (resolve : Nat → Nat) : GetResult → Option Nat
  | .notFound => none
  | .cached v => some v
  | .pending loadId => some (resolve loadId)

/-- `k` successive property accesses of the same handler name, threading
the dispatcher state. -/
def iterGets (basePath name : String) : Nat → DispatchState → List GetResult × DispatchState
  | 0, st => ([], st)
  | Nat.succ k, st =>
    match proxyGet basePath (.str name) st with
    | (r, st1) =>
      match iterGets basePath name k st1 with
      | (rs, st2) => (r :: rs, st2)

/-! ### Supporting lemmas -/

theorem lookup_setEntry_self {α β : Type} [BEq α] [LawfulBEq α] (k : α) (v : β)
    (l : List (α × β)) : (setEntry k v l).lookup k = some v := by
  induction l with
  | nil => simp [setEntry, List.lookup]
  | cons kv rest ih =>
    obtain ⟨k', v'⟩ := kv
    by_cases h : k' = k
    · subst h
      simp [setEntry, List.lookup]
    · have hb : (k' == k) = false := beq_eq_false_iff_ne.mpr h
      have hb' : (k == k') = false := beq_eq_false_iff_ne.mpr (Ne.symm h)
      simp [setEntry, hb, List.lookup, hb', ih]

theorem toInt32_emod (a : Int) : toInt32 a % 4294967296 = a % 4294967296 := by
  unfold toInt32
  omega

theorem toInt32_congr {a b : Int} (h : a % 4294967296 = b % 4294967296) :
    toInt32 a = toInt32 b := by
  unfold toInt32
  omega

theorem jsHashStep_eq_specHashStep (h : Int) (c : Char) :
    jsHashStep h c = specHashStep h c := by
  unfold jsHashStep specHashStep
  apply toInt32_congr
  have h32 := toInt32_emod (h * 32)
  omega

theorem jsHash_eq_specHash (s : String) : jsHash s = specHash s := by
  unfold jsHash specHash
  rw [show jsHashStep = specHashStep from
    funext fun a => funext fun c => jsHashStep_eq_specHashStep a c]

theorem loadCacheOnce_cacheLoaded (cf : Option ClientFunctionCacheV1) (st : GlobalState) :
    (loadCacheOnce cf st).cacheLoaded = true := by
  unfold loadCacheOnce
  split
  · assumption
  · cases cf with
    | none => rfl
    | some parsed =>
      simp only []
      split <;> rfl

theorem loadCacheOnce_memo (cf : Option ClientFunctionCacheV1) (st : GlobalState) :
    (loadCacheOnce cf st).sourceFileMtimeMemo = st.sourceFileMtimeMemo := by
  unfold loadCacheOnce
  split
  · rfl
  · cases cf with
    | none => rfl
    | some parsed =>
      simp only []
      split <;> rfl

theorem loadCacheOnce_hashCount (cf : Option ClientFunctionCacheV1) (st : GlobalState) :
    (loadCacheOnce cf st).hashCount = st.hashCount := by
  unfold loadCacheOnce
  split
  · rfl
  · cases cf with
    | none => rfl
    | some parsed =>
      simp only []
      split <;> rfl

theorem loadCacheOnce_of_loaded {st : GlobalState} (cf : Option ClientFunctionCacheV1)
    (h : st.cacheLoaded = true) : loadCacheOnce cf st = st := by
  unfold loadCacheOnce
  simp [h]

theorem scheduleCacheFlush_cache (st : GlobalState) :
    (scheduleCacheFlush st).cache = st.cache := by
  unfold scheduleCacheFlush
  split <;> rfl

theorem scheduleCacheFlush_memo (st : GlobalState) :
    (scheduleCacheFlush st).sourceFileMtimeMemo = st.sourceFileMtimeMemo := by
  unfold scheduleCacheFlush
  split <;> rfl

theorem scheduleCacheFlush_hashCount (st : GlobalState) :
    (scheduleCacheFlush st).hashCount = st.hashCount := by
  unfold scheduleCacheFlush
  split <;> rfl

theorem scheduleCacheFlush_cacheLoaded (st : GlobalState) :
    (scheduleCacheFlush st).cacheLoaded = st.cacheLoaded := by
  unfold scheduleCacheFlush
  split <;> rfl

theorem getSourceFileMtimeMs_memo_hit {st : GlobalState} {url : String} {v : Option Int}
    (fs : String → Option Int) (h : st.sourceFileMtimeMemo.lookup url = some v) :
    getSourceFileMtimeMs fs url st = (v, st) := by
  unfold getSourceFileMtimeMs
  rw [h]

theorem getSourceFileMtimeMs_snd_cache (fs : String → Option Int) (url : String)
    (st : GlobalState) : (getSourceFileMtimeMs fs url st).2.cache = st.cache := by
  unfold getSourceFileMtimeMs
  cases h : st.sourceFileMtimeMemo.lookup url <;> rfl

theorem getSourceFileMtimeMs_snd_hashCount (fs : String → Option Int) (url : String)
    (st : GlobalState) : (getSourceFileMtimeMs fs url st).2.hashCount = st.hashCount := by
  unfold getSourceFileMtimeMs
  cases h : st.sourceFileMtimeMemo.lookup url <;> rfl

theorem getSourceFileMtimeMs_snd_cacheLoaded (fs : String → Option Int) (url : String)
    (st : GlobalState) : (getSourceFileMtimeMs fs url st).2.cacheLoaded = st.cacheLoaded := by
  unfold getSourceFileMtimeMs
  cases h : st.sourceFileMtimeMemo.lookup url <;> rfl

theorem getSourceFileMtimeMs_snd_memo_lookup (fs : String → Option Int) (url : String)
    (st : GlobalState) :
    (getSourceFileMtimeMs fs url st).2.sourceFileMtimeMemo.lookup url
      = some (getSourceFileMtimeMs fs url st).1 := by
  unfold getSourceFileMtimeMs
  cases h : st.sourceFileMtimeMemo.lookup url with
  | some v => simpa using h
  | none => simpa using lookup_setEntry_self url (fs url) st.sourceFileMtimeMemo

theorem refreshAndLookup_spec (n url : String) (m : Int) (st : GlobalState) :
    ∃ hs : List (String × String),
      (refreshAndLookup n url m st).2.cache.files.lookup url = some ⟨m, hs⟩ ∧
      (refreshAndLookup n url m st).1 = hs.lookup n ∧
      (refreshAndLookup n url m st).2.sourceFileMtimeMemo = st.sourceFileMtimeMemo ∧
      (refreshAndLookup n url m st).2.hashCount = st.hashCount ∧
      (refreshAndLookup n url m st).2.cacheLoaded = st.cacheLoaded := by
  cases hE : st.cache.files.lookup url with
  | none =>
    refine ⟨[], ?_, ?_, ?_, ?_, ?_⟩ <;>
      simp [refreshAndLookup, hE, scheduleCacheFlush_cache, scheduleCacheFlush_memo,
        scheduleCacheFlush_hashCount, scheduleCacheFlush_cacheLoaded, lookup_setEntry_self,
        List.lookup]
  | some entry =>
    obtain ⟨emt, ehs⟩ := entry
    by_cases hm : emt = m
    · subst hm
      refine ⟨ehs, ?_, ?_, ?_, ?_, ?_⟩ <;> simp [refreshAndLookup, hE]
    · have hb : (emt != m) = true := by simp [bne, hm]
      refine ⟨[], ?_, ?_, ?_, ?_, ?_⟩ <;>
        simp [refreshAndLookup, hE, hb, scheduleCacheFlush_cache, scheduleCacheFlush_memo,
          scheduleCacheFlush_hashCount, scheduleCacheFlush_cacheLoaded, lookup_setEntry_self,
          List.lookup]

theorem refreshAndLookup_stale (n url : String) (m : Int) (st : GlobalState)
    (entry : CacheFileEntry) (hE : st.cache.files.lookup url = some entry)
    (hm : entry.mtimeMs ≠ m) :
    (refreshAndLookup n url m st).1 = none ∧
    (refreshAndLookup n url m st).2.cache.files.lookup url = some ⟨m, []⟩ := by
  have hb : (entry.mtimeMs != m) = true := by simp [bne, hm]
  constructor <;>
    simp [refreshAndLookup, hE, hb, scheduleCacheFlush_cache, lookup_setEntry_self,
      List.lookup]

theorem resolvePhase_hit (n src : String) (u : Option String) (c : String)
    (mt : Option Int) (st : GlobalState) :
    resolvePhase n src u (some c) mt st = (c, st) := rfl

theorem resolvePhase_miss_fst (n src : String) (u : Option String) (mt : Option Int)
    (st : GlobalState) :
    (resolvePhase n src u none mt st).1 = hashedFilename n src := by
  cases u with
  | none => cases mt <;> rfl
  | some url =>
    cases mt with
    | none => rfl
    | some m => cases hE : st.cache.files.lookup url <;> simp [resolvePhase, hE]

theorem resolvePhase_miss_hashCount (n src : String) (u : Option String)
    (mt : Option Int) (st : GlobalState) :
    (resolvePhase n src u none mt st).2.hashCount = st.hashCount + 1 := by
  cases u with
  | none => cases mt <;> rfl
  | some url =>
    cases mt with
    | none => rfl
    | some m =>
      cases hE : st.cache.files.lookup url <;>
        simp [resolvePhase, hE, scheduleCacheFlush_hashCount]

theorem resolvePhase_miss_store (n src url : String) (m : Int)
    (hs : List (String × String)) (st : GlobalState)
    (hE : st.cache.files.lookup url = some ⟨m, hs⟩) :
    (resolvePhase n src (some url) none (some m) st).1 = hashedFilename n src ∧
    (resolvePhase n src (some url) none (some m) st).2.cache.files.lookup url
      = some ⟨m, setEntry n (hashedFilename n src) hs⟩ ∧
    (resolvePhase n src (some url) none (some m) st).2.sourceFileMtimeMemo
      = st.sourceFileMtimeMemo ∧
    (resolvePhase n src (some url) none (some m) st).2.cacheLoaded = st.cacheLoaded ∧
    (resolvePhase n src (some url) none (some m) st).2.hashCount = st.hashCount + 1 := by
  refine ⟨?_, ?_, ?_, ?_, ?_⟩ <;>
    simp [resolvePhase, hE, scheduleCacheFlush_cache, scheduleCacheFlush_memo,
      scheduleCacheFlush_cacheLoaded, scheduleCacheFlush_hashCount, lookup_setEntry_self]

theorem registerPhase_fst (n src r : String) (u : Option String) (st : GlobalState) :
    (registerPhase n src r u st).1 =
      { fnName := n, fn := .function src, filename := r, sourceFileUrl := u,
        props := [(n, "handlers." ++ r ++ "(this, event)")] } := rfl

theorem registerPhase_snd_cache (n src r : String) (u : Option String) (st : GlobalState) :
    (registerPhase n src r u st).2.cache = st.cache := rfl

theorem registerPhase_snd_memo (n src r : String) (u : Option String) (st : GlobalState) :
    (registerPhase n src r u st).2.sourceFileMtimeMemo = st.sourceFileMtimeMemo := rfl

theorem registerPhase_snd_hashCount (n src r : String) (u : Option String)
    (st : GlobalState) : (registerPhase n src r u st).2.hashCount = st.hashCount := rfl

theorem registerPhase_snd_cacheLoaded (n src r : String) (u : Option String)
    (st : GlobalState) : (registerPhase n src r u st).2.cacheLoaded = st.cacheLoaded := rfl

theorem lookupPhase_none (fs : String → Option Int) (n : String) (st : GlobalState) :
    lookupPhase fs n none st = (none, none, st) := rfl

theorem refreshAndLookup_fresh (n url : String) (m : Int) (st : GlobalState)
    (hs : List (String × String)) (hE : st.cache.files.lookup url = some ⟨m, hs⟩) :
    refreshAndLookup n url m st = (hs.lookup n, st) := by
  simp [refreshAndLookup, hE]

theorem resolvePhase_snd_memo (n src : String) (u : Option String)
    (c : Option String) (mt : Option Int) (st : GlobalState) :
    (resolvePhase n src u c mt st).2.sourceFileMtimeMemo = st.sourceFileMtimeMemo := by
  cases c with
  | some c => rfl
  | none =>
    cases u with
    | none => cases mt <;> rfl
    | some url =>
      cases mt with
      | none => rfl
      | some m =>
        cases hE : st.cache.files.lookup url <;>
          simp [resolvePhase, hE, scheduleCacheFlush_memo]

theorem lookupPhase_snd_memo (fs : String → Option Int) (n url : String)
    (st : GlobalState) :
    (lookupPhase fs n (some url) st).2.2.sourceFileMtimeMemo
      = (getSourceFileMtimeMs fs url st).2.sourceFileMtimeMemo := by
  rcases hG : getSourceFileMtimeMs fs url st with ⟨mv, stM⟩
  cases mv with
  | none => simp only [lookupPhase, hG]
  | some m =>
    rcases hRL : refreshAndLookup n url m stM with ⟨c, stR⟩
    obtain ⟨hs, _, _, hMemo, _, _⟩ := refreshAndLookup_spec n url m stM
    rw [hRL] at hMemo
    simp only [lookupPhase, hG, hRL]
    exact hMemo

/-- The constructor on a function value, decomposed into its three phases;
holds definitionally by structure eta for the intermediate pairs. -/
theorem constructClientFunction_function (fs : String → Option Int)
    (cf : Option ClientFunctionCacheV1) (n src : String) (url : Option String)
    (st : GlobalState) :
    constructClientFunction fs cf n (.function src) url st =
      (.ok (registerPhase n src
              (resolvePhase n src url
                (lookupPhase fs n url (loadCacheOnce cf st)).1
                (lookupPhase fs n url (loadCacheOnce cf st)).2.1
                (lookupPhase fs n url (loadCacheOnce cf st)).2.2).1
              url
              (resolvePhase n src url
                (lookupPhase fs n url (loadCacheOnce cf st)).1
                (lookupPhase fs n url (loadCacheOnce cf st)).2.1
                (lookupPhase fs n url (loadCacheOnce cf st)).2.2).2).1,
       (registerPhase n src
              (resolvePhase n src url
                (lookupPhase fs n url (loadCacheOnce cf st)).1
                (lookupPhase fs n url (loadCacheOnce cf st)).2.1
                (lookupPhase fs n url (loadCacheOnce cf st)).2.2).1
              url
              (resolvePhase n src url
                (lookupPhase fs n url (loadCacheOnce cf st)).1
                (lookupPhase fs n url (loadCacheOnce cf st)).2.1
                (lookupPhase fs n url (loadCacheOnce cf st)).2.2).2).2) := rfl

theorem proxyGet_first (basePath n : String) (st : DispatchState)
    (hT : st.target.lookup n = none)
    (hM : st.moduleMap.lookup (basePath ++ "/" ++ n ++ ".js") = none) :
    proxyGet basePath (.str n) st =
      (.pending st.nextLoad,
        { st with
            moduleMap := setEntry (basePath ++ "/" ++ n ++ ".js") st.nextLoad st.moduleMap
            nextLoad := st.nextLoad + 1 }) := by
  simp [proxyGet, hT, dynamicImport, hM]

theorem proxyGet_steady (basePath n : String) (st : DispatchState) (lid : Nat)
    (hT : st.target.lookup n = none)
    (hM : st.moduleMap.lookup (basePath ++ "/" ++ n ++ ".js") = some lid) :
    proxyGet basePath (.str n) st = (.pending lid, st) := by
  simp [proxyGet, hT, dynamicImport, hM]

theorem iterGets_succ (basePath n : String) (k : Nat) (st : DispatchState) :
    iterGets basePath n (k + 1) st =
      ((proxyGet basePath (.str n) st).1
          :: (iterGets basePath n k (proxyGet basePath (.str n) st).2).1,
       (iterGets basePath n k (proxyGet basePath (.str n) st).2).2) := rfl

theorem iterGets_steady (basePath n : String) (k : Nat) (st : DispatchState) (lid : Nat)
    (hT : st.target.lookup n = none)
    (hM : st.moduleMap.lookup (basePath ++ "/" ++ n ++ ".js") = some lid) :
    iterGets basePath n k st = (List.replicate k (GetResult.pending lid), st) := by
  induction k with
  | zero => rfl
  | succ k ih =>
    rw [iterGets_succ, proxyGet_steady basePath n st lid hT hM]
    simp only []
    rw [ih]
    simp [List.replicate]

/-- One constructor call with a readable source mtime `m`: it succeeds, and
afterwards the cache's entry for the file records mtime `m` and maps the
handler name to the wrapper's resolved filename, the mtime memo holds `m`,
and the cache is marked loaded. -/
theorem construct_with_mtime (fs : String → Option Int)
    (cf : Option ClientFunctionCacheV1) (n src url : String) (m : Int)
    (st : GlobalState)
    (hMt : (getSourceFileMtimeMs fs url (loadCacheOnce cf st)).1 = some m) :
    ∃ (w1 : ClientFunctionWrapper) (st1 : GlobalState) (hs1 : List (String × String)),
      constructClientFunction fs cf n (.function src) (some url) st = (.ok w1, st1) ∧
      st1.cache.files.lookup url = some ⟨m, hs1⟩ ∧
      hs1.lookup n = some w1.filename ∧
      st1.sourceFileMtimeMemo.lookup url = some (some m) ∧
      st1.cacheLoaded = true := by
  rcases hG : getSourceFileMtimeMs fs url (loadCacheOnce cf st) with ⟨mv, stM⟩
  have hmv : mv = some m := by rw [hG] at hMt; exact hMt
  subst hmv
  have hMemoM : stM.sourceFileMtimeMemo.lookup url = some (some m) := by
    have h := getSourceFileMtimeMs_snd_memo_lookup fs url (loadCacheOnce cf st)
    rw [hG] at h
    exact h
  have hCLM : stM.cacheLoaded = true := by
    have h := getSourceFileMtimeMs_snd_cacheLoaded fs url (loadCacheOnce cf st)
    rw [hG] at h
    rw [h, loadCacheOnce_cacheLoaded]
  obtain ⟨hs, hFiles, hFst, hMemo, hHC, hCL⟩ := refreshAndLookup_spec n url m stM
  rcases hRL : refreshAndLookup n url m stM with ⟨cached, stR⟩
  rw [hRL] at hFiles hFst hMemo hHC hCL
  have hL : lookupPhase fs n (some url) (loadCacheOnce cf st) = (cached, some m, stR) := by
    simp only [lookupPhase, hG, hRL]
  cases hcc : cached with
  | some c =>
    refine ⟨(registerPhase n src c (some url) stR).1,
      (registerPhase n src c (some url) stR).2, hs, ?_, ?_, ?_, ?_, ?_⟩
    · simp only [constructClientFunction_function, hL, hcc, resolvePhase_hit]
    · rw [registerPhase_snd_cache]
      exact hFiles
    · rw [registerPhase_fst]
      rw [hcc] at hFst
      exact hFst.symm
    · rw [registerPhase_snd_memo, hMemo]
      exact hMemoM
    · rw [registerPhase_snd_cacheLoaded, hCL]
      exact hCLM
  | none =>
    rcases hR : resolvePhase n src (some url) none (some m) stR with ⟨r, stR2⟩
    obtain ⟨hr1, hr2, hr3, hr4, hr5⟩ := resolvePhase_miss_store n src url m hs stR hFiles
    rw [hR] at hr1 hr2 hr3 hr4 hr5
    refine ⟨(registerPhase n src r (some url) stR2).1,
      (registerPhase n src r (some url) stR2).2,
      setEntry n (hashedFilename n src) hs, ?_, ?_, ?_, ?_, ?_⟩
    · simp only [constructClientFunction_function, hL, hcc, hR]
    · rw [registerPhase_snd_cache]
      exact hr2
    · rw [registerPhase_fst]
      have hr1' : r = hashedFilename n src := hr1
      rw [hr1']
      exact lookup_setEntry_self n (hashedFilename n src) hs
    · rw [registerPhase_snd_memo, hr3, hMemo]
      exact hMemoM
    · rw [registerPhase_snd_cacheLoaded, hr4, hCL]
      exact hCLM

/-! ### Claim theorems -/

/-- Claim C10: when the second argument is not a function, the
`ClientFunction` constructor throws before touching any state: the handler
map, the import registries, the cache contents, the dirty flag, the mtime
memo and the flush-scheduled flag are all exactly as before the call. -/
theorem non_function_rejection_atomic (fs : String → Option Int)
    (cf : Option ClientFunctionCacheV1) (n : String) (url : Option String)
    (st : GlobalState) :
    constructClientFunction fs cf n .other url st
      = (.error "ClientFunction requires a function", st) := rfl

/-- Claim C2 (code bug): `buildCode` passes the transpiler ESM format, a
modern target and no source maps, but the orchestrator's `minify` flag never
reaches it — the handler build step's output is independent of the flag and
the options always carry `minify := false` (the transpiler default), because
`build.ts` line 193 passes an argument that `buildCode`'s parameterless
declaration drops. -/
theorem buildCode_minify_never_applied (minify : Bool)
    (tr : String → TransformOptions → Except String String)
    (imports : List (String × List (String × String))) (w : ClientFunctionWrapper)
    (fileExists : Bool) :
    buildHandlerFile minify tr imports w fileExists
        = buildHandlerFile true tr imports w fileExists ∧
    buildHandlerFile minify tr imports w false = some (buildCode tr imports w) ∧
    buildCodeTransformOptions.format = "esm" ∧
    buildCodeTransformOptions.target = ["esnext"] ∧
    buildCodeTransformOptions.sourcemap = false ∧
    buildCodeTransformOptions.minify = false :=
  ⟨rfl, rfl, rfl, rfl, rfl, rfl⟩

/-- Claim C6: when the transpiler throws, `buildCode` does not fail but
returns exactly the untransformed composite source text: the synthesized
lines of imports joined by newlines, a newline, then `export default`
followed by the function's serialized source. -/
theorem buildCode_transpiler_fallback
    (tr : String → TransformOptions → Except String String)
    (imports : List (String × List (String × String))) (w : ClientFunctionWrapper)
    (e : String)
    (h : tr (functionCodeOf imports w) buildCodeTransformOptions = .error e) :
    buildCode tr imports w =
      String.intercalate "\n"
          (importLinesFor (getImportRegistryView imports w.sourceFileUrl) w)
        ++ "\n" ++ "export default " ++ w.fn.src := by
  unfold buildCode
  rw [h]
  rfl

theorem buildCode_transpiler_fallback_witness :
    ((fun (_ : String) (_ : TransformOptions) => (Except.error "boom" : Except String String))
        (functionCodeOf []
          ⟨"h", .function "f", "h_66", none, [("h", "handlers.h_66(this, event)")]⟩)
        buildCodeTransformOptions = .error "boom") ∧
    buildCode (fun _ _ => .error "boom") []
        ⟨"h", .function "f", "h_66", none, [("h", "handlers.h_66(this, event)")]⟩ =
      String.intercalate "\n"
          (importLinesFor (getImportRegistryView [] none)
            ⟨"h", .function "f", "h_66", none, [("h", "handlers.h_66(this, event)")]⟩)
        ++ "\n" ++ "export default "
        ++ (JsValue.function "f").src :=
  ⟨rfl, buildCode_transpiler_fallback (fun _ _ => .error "boom") []
    ⟨"h", .function "f", "h_66", none, [("h", "handlers.h_66(this, event)")]⟩ "boom" rfl⟩

/-- Claim C3: the wrapper returned by a successful construction exposes a
property named exactly the handler name, whose value is the string
`handlers.<resolvedId>(this, event)` with `<resolvedId>` the wrapper's
`filename` field. -/
theorem wrapper_invocation_string (fs : String → Option Int)
    (cf : Option ClientFunctionCacheV1) (n src : String) (url : Option String)
    (st st' : GlobalState) (w : ClientFunctionWrapper)
    (h : constructClientFunction fs cf n (.function src) url st = (.ok w, st')) :
    w.fnName = n ∧
    w.props.lookup n = some ("handlers." ++ w.filename ++ "(this, event)") := by
  rw [constructClientFunction_function] at h
  injection h with h1 h2
  injection h1 with h1
  rw [← h1, registerPhase_fst]
  simp [List.lookup]

theorem wrapper_invocation_string_witness :
    (constructClientFunction (fun _ => none) none "h" (.function "f") none initialState
      = (.ok ⟨"h", .function "f", "h_66", none, [("h", "handlers.h_66(this, event)")]⟩,
         ⟨true, false, false, ⟨1, []⟩, [],
          [(.function "f",
            ⟨"h", .function "f", "h_66", none, [("h", "handlers.h_66(this, event)")]⟩)],
          [("__global__", [("h", "h_66")])], 1⟩)) ∧
    ((⟨"h", .function "f", "h_66", none,
        [("h", "handlers.h_66(this, event)")]⟩ : ClientFunctionWrapper).fnName = "h" ∧
      (⟨"h", .function "f", "h_66", none,
        [("h", "handlers.h_66(this, event)")]⟩ : ClientFunctionWrapper).props.lookup "h"
        = some ("handlers."
            ++ (⟨"h", .function "f", "h_66", none,
                [("h", "handlers.h_66(this, event)")]⟩ : ClientFunctionWrapper).filename
            ++ "(this, event)")) :=
  ⟨rfl, wrapper_invocation_string (fun _ => none) none "h" "f" none initialState
    ⟨true, false, false, ⟨1, []⟩, [],
      [(.function "f",
        ⟨"h", .function "f", "h_66", none, [("h", "handlers.h_66(this, event)")]⟩)],
      [("__global__", [("h", "h_66")])], 1⟩
    ⟨"h", .function "f", "h_66", none, [("h", "handlers.h_66(this, event)")]⟩ rfl⟩

/-- Claim C8 counterexample: cleanup only considers files ending in `.js`,
so a file `b.txt` whose base name is not in the produced set survives a
cleanup-enabled pass, contradicting the claim that every file with an
unproduced base name is deleted. -/
theorem cleanup_claim_counterexample :
    (⟨"b.txt", true⟩ : DirEntry) ∈ cleanupDir [⟨"a.js", true⟩, ⟨"b.txt", true⟩] ["a"] ∧
    baseName "b.txt" ∉ ["a"] := by
  decide

/-- Claim C8 amended: after a cleanup-enabled build the output directory
keeps an entry iff it was there before and — when it is a regular file whose
name ends in `.js` — its base name (the portion before the first dot) is in
the produced set; entries not ending in `.js` are untouched. In particular
with directory `a.js, b.js, c.js` and produced set `a, c`, only `a.js` and
`c.js` remain. -/
theorem cleanup_prunes_js_files :
    (∀ (entries : List DirEntry) (files : List String) (e : DirEntry),
      e ∈ cleanupDir entries files ↔
        e ∈ entries ∧
          (e.isFile = true → strEndsWith e.name ".js" = true →
            baseName e.name ∈ files)) ∧
    cleanupDir [⟨"a.js", true⟩, ⟨"b.js", true⟩, ⟨"c.js", true⟩] ["a", "c"]
      = [⟨"a.js", true⟩, ⟨"c.js", true⟩] := by
  constructor
  · intro entries files e
    rw [cleanupDir, List.mem_filter]
    apply and_congr_right
    intro _
    cases h1 : e.isFile <;> cases h2 : strEndsWith e.name ".js" <;>
      by_cases h3 : baseName e.name ∈ files <;>
        simp [cleanupKeeps, h1, h2, h3, List.contains, List.elem_iff]
  · decide

/-- Claim C4: on a cache miss, and always when no defining-file locator is
supplied (in which case nothing is stored back and the hash branch runs),
the resolved id is the handler name, an underscore, and the lowercase-hex
rendering of the absolute value of the 32-bit rolling hash accumulated per
character as `hash * 31 + charCode` with 32-bit wraparound. -/
theorem resolved_id_hash_formula (fs : String → Option Int)
    (cf : Option ClientFunctionCacheV1) (n src url : String) (st : GlobalState) :
    ((constructClientFunction fs cf n (.function src) none st).1.map
        ClientFunctionWrapper.filename
      = .ok (n ++ "_" ++ hexOfNat (specHash src).natAbs)) ∧
    ((constructClientFunction fs cf n (.function src) none st).2.cache
      = (loadCacheOnce cf st).cache) ∧
    ((constructClientFunction fs cf n (.function src) none st).2.hashCount
      = st.hashCount + 1) ∧
    ((lookupPhase fs n (some url) (loadCacheOnce cf st)).1 = none →
      (constructClientFunction fs cf n (.function src) (some url) st).1.map
        ClientFunctionWrapper.filename
        = .ok (n ++ "_" ++ hexOfNat (specHash src).natAbs)) := by
  have hspec : hashedFilename n src = n ++ "_" ++ hexOfNat (specHash src).natAbs := by
    unfold hashedFilename
    rw [jsHash_eq_specHash]
  refine ⟨?_, ?_, ?_, ?_⟩
  · show Except.ok (hashedFilename n src) = _
    rw [hspec]
  · rfl
  · show (loadCacheOnce cf st).hashCount + 1 = st.hashCount + 1
    rw [loadCacheOnce_hashCount]
  · intro hMiss
    rcases hL : lookupPhase fs n (some url) (loadCacheOnce cf st) with ⟨c, mt, st2⟩
    have hc : c = none := by rw [hL] at hMiss; exact hMiss
    subst hc
    simp only [constructClientFunction_function, hL]
    show Except.ok ((resolvePhase n src (some url) none mt st2).1) = _
    rw [resolvePhase_miss_fst, hspec]

theorem resolved_id_hash_formula_witness :
    ((lookupPhase (fun _ => some 5) "ping" (some "u") (loadCacheOnce none initialState)).1
        = none) ∧
    ((constructClientFunction (fun _ => some 5) none "ping"
        (.function "function()\x7breturn 1\x7d") (some "u") initialState).1.map
        ClientFunctionWrapper.filename
      = .ok ("ping" ++ "_" ++ hexOfNat (specHash "function()\x7breturn 1\x7d").natAbs)) :=
  ⟨rfl, (resolved_id_hash_formula (fun _ => some 5) none "ping"
      "function()\x7breturn 1\x7d" "u" initialState).2.2.2 rfl⟩

/-- Claim C5: when the defining file's current mtime differs from the time
recorded in the cache, the file's entire handler sub-map is discarded before
any lookup — the lookup misses for every handler name of that file, the
file's entry is reset to an empty handler map carrying the new mtime, and
the registration falls through to fresh hashing. -/
theorem stale_mtime_invalidates_all (fs : String → Option Int)
    (cf : Option ClientFunctionCacheV1) (n src url : String) (m : Int)
    (st : GlobalState) (entry : CacheFileEntry)
    (hLoaded : st.cacheLoaded = true)
    (hMt : (getSourceFileMtimeMs fs url st).1 = some m)
    (hE : st.cache.files.lookup url = some entry)
    (hStale : entry.mtimeMs ≠ m) :
    (∀ name, (refreshAndLookup name url m st).1 = none) ∧
    (∀ name, (refreshAndLookup name url m st).2.cache.files.lookup url = some ⟨m, []⟩) ∧
    ((constructClientFunction fs cf n (.function src) (some url) st).2.hashCount
      = st.hashCount + 1) := by
  refine ⟨fun name => (refreshAndLookup_stale name url m st entry hE hStale).1,
    fun name => (refreshAndLookup_stale name url m st entry hE hStale).2, ?_⟩
  rcases hG : getSourceFileMtimeMs fs url st with ⟨mv, stM⟩
  have hmv : mv = some m := by rw [hG] at hMt; exact hMt
  subst hmv
  have hMc : stM.cache = st.cache := by
    have h := getSourceFileMtimeMs_snd_cache fs url st
    rw [hG] at h
    exact h
  have hMh : stM.hashCount = st.hashCount := by
    have h := getSourceFileMtimeMs_snd_hashCount fs url st
    rw [hG] at h
    exact h
  have hEM : stM.cache.files.lookup url = some entry := by rw [hMc]; exact hE
  rcases hRL : refreshAndLookup n url m stM with ⟨c, stR⟩
  have hcnone : c = none := by
    have h := (refreshAndLookup_stale n url m stM entry hEM hStale).1
    rw [hRL] at h
    exact h
  subst hcnone
  obtain ⟨hs, hF1, hF2, hF3, hF4, hF5⟩ := refreshAndLookup_spec n url m stM
  rw [hRL] at hF4
  have hF4' : stR.hashCount = stM.hashCount := hF4
  have hL : lookupPhase fs n (some url) (loadCacheOnce cf st) = (none, some m, stR) := by
    rw [loadCacheOnce_of_loaded cf hLoaded]
    simp only [lookupPhase, hG, hRL]
  simp only [constructClientFunction_function, hL]
  rw [registerPhase_snd_hashCount, resolvePhase_miss_hashCount, hF4', hMh]

theorem stale_mtime_invalidates_all_witness :
    ((⟨5, [("h", "h_old")]⟩ : CacheFileEntry).mtimeMs ≠ 7) ∧
    ((constructClientFunction (fun _ => some 7) none "h" (.function "f") (some "u")
        ⟨true, false, false, ⟨1, [("u", ⟨5, [("h", "h_old")]⟩)]⟩, [], [], [], 0⟩).2.hashCount
      = (⟨true, false, false, ⟨1, [("u", ⟨5, [("h", "h_old")]⟩)]⟩, [], [], [],
          0⟩ : GlobalState).hashCount + 1) :=
  ⟨by decide, (stale_mtime_invalidates_all (fun _ => some 7) none "h" "f" "u" 7
      ⟨true, false, false, ⟨1, [("u", ⟨5, [("h", "h_old")]⟩)]⟩, [], [], [], 0⟩
      ⟨5, [("h", "h_old")]⟩ rfl rfl rfl (by decide)).2.2⟩

/-- Claim C7: registering the same name and source twice against the same
defining file, with the file's modification time readable and unchanged,
yields the identical resolved id both times, and the second registration is
a cache hit that does not enter the hashing branch. -/
theorem second_registration_cache_hit (fs : String → Option Int)
    (cf : Option ClientFunctionCacheV1) (n src url : String) (m : Int)
    (st : GlobalState)
    (hMt : (getSourceFileMtimeMs fs url (loadCacheOnce cf st)).1 = some m) :
    ∃ (w1 : ClientFunctionWrapper) (st1 : GlobalState) (w2 : ClientFunctionWrapper)
      (st2 : GlobalState),
      constructClientFunction fs cf n (.function src) (some url) st = (.ok w1, st1) ∧
      constructClientFunction fs cf n (.function src) (some url) st1 = (.ok w2, st2) ∧
      w2.filename = w1.filename ∧
      st2.hashCount = st1.hashCount := by
  obtain ⟨w1, st1, hs1, hC1, hFiles1, hLook1, hMemo1, hCL1⟩ :=
    construct_with_mtime fs cf n src url m st hMt
  have hLoad2 : loadCacheOnce cf st1 = st1 := loadCacheOnce_of_loaded cf hCL1
  have hG2 : getSourceFileMtimeMs fs url st1 = (some m, st1) :=
    getSourceFileMtimeMs_memo_hit fs hMemo1
  have hRL2 : refreshAndLookup n url m st1 = (some w1.filename, st1) := by
    rw [refreshAndLookup_fresh n url m st1 hs1 hFiles1, hLook1]
  have hL2 : lookupPhase fs n (some url) (loadCacheOnce cf st1)
      = (some w1.filename, some m, st1) := by
    rw [hLoad2]
    simp only [lookupPhase, hG2, hRL2]
  refine ⟨w1, st1, (registerPhase n src w1.filename (some url) st1).1,
    (registerPhase n src w1.filename (some url) st1).2, hC1, ?_, ?_, ?_⟩
  · simp only [constructClientFunction_function, hL2, resolvePhase_hit]
  · rw [registerPhase_fst]
  · exact registerPhase_snd_hashCount n src w1.filename (some url) st1

theorem second_registration_cache_hit_witness :
    ((getSourceFileMtimeMs (fun _ => some 5) "u" (loadCacheOnce none initialState)).1
        = some 5) ∧
    (∃ (w1 : ClientFunctionWrapper) (st1 : GlobalState) (w2 : ClientFunctionWrapper)
        (st2 : GlobalState),
      constructClientFunction (fun _ => some 5) none "h" (.function "f") (some "u")
          initialState = (.ok w1, st1) ∧
      constructClientFunction (fun _ => some 5) none "h" (.function "f") (some "u")
          st1 = (.ok w2, st2) ∧
      w2.filename = w1.filename ∧
      st2.hashCount = st1.hashCount) :=
  ⟨rfl, second_registration_cache_hit (fun _ => some 5) none "h" "f" "u" 5 initialState rfl⟩

/-- Claim C9: the defining file's mtime is read from the filesystem at most
once per process and memoized (a failed read is memoized as well, as the
`none` value); once the memo holds the locator, a registration's outcome is
independent of the filesystem's current state, so a later edit to the file
never triggers invalidation within the process; and any registration with a
locator leaves the memo populated for it. -/
theorem mtime_memoized_per_process (fs fsB : String → Option Int)
    (cf : Option ClientFunctionCacheV1) (n src url : String) (st : GlobalState)
    (v : Option Int) :
    (st.sourceFileMtimeMemo.lookup url = none →
      getSourceFileMtimeMs fs url st =
        (fs url,
          { st with sourceFileMtimeMemo :=
              setEntry url (fs url) st.sourceFileMtimeMemo })) ∧
    (st.sourceFileMtimeMemo.lookup url = some v →
      getSourceFileMtimeMs fs url st = (v, st)) ∧
    (st.sourceFileMtimeMemo.lookup url = some v →
      constructClientFunction fs cf n (.function src) (some url) st
        = constructClientFunction fsB cf n (.function src) (some url) st) ∧
    ((constructClientFunction fs cf n
        (.function src) (some url) st).2.sourceFileMtimeMemo.lookup url
      = some ((getSourceFileMtimeMs fs url (loadCacheOnce cf st)).1)) := by
  refine ⟨?_, ?_, ?_, ?_⟩
  · intro h
    unfold getSourceFileMtimeMs
    rw [h]
  · intro h
    exact getSourceFileMtimeMs_memo_hit fs h
  · intro h
    have hm : (loadCacheOnce cf st).sourceFileMtimeMemo.lookup url = some v := by
      rw [loadCacheOnce_memo]
      exact h
    have h1 := getSourceFileMtimeMs_memo_hit fs hm
    have h2 := getSourceFileMtimeMs_memo_hit fsB hm
    have hL : lookupPhase fs n (some url) (loadCacheOnce cf st)
        = lookupPhase fsB n (some url) (loadCacheOnce cf st) := by
      simp only [lookupPhase, h1, h2]
    simp only [constructClientFunction_function, hL]
  · simp only [constructClientFunction_function, registerPhase_snd_memo,
      resolvePhase_snd_memo]
    rw [lookupPhase_snd_memo]
    exact getSourceFileMtimeMs_snd_memo_lookup fs url (loadCacheOnce cf st)

theorem mtime_memoized_per_process_witness :
    ((⟨false, false, false, ⟨1, []⟩, [("u", some 5)], [], [],
        0⟩ : GlobalState).sourceFileMtimeMemo.lookup "u" = some (some 5)) ∧
    (constructClientFunction (fun _ => some 5) none "h" (.function "f") (some "u")
        ⟨false, false, false, ⟨1, []⟩, [("u", some 5)], [], [], 0⟩
      = constructClientFunction (fun _ => some 6) none "h" (.function "f") (some "u")
        ⟨false, false, false, ⟨1, []⟩, [("u", some 5)], [], [], 0⟩) :=
  ⟨rfl, (mtime_memoized_per_process (fun _ => some 5) (fun _ => some 6) none "h" "f" "u"
      ⟨false, false, false, ⟨1, []⟩, [("u", some 5)], [], [], 0⟩ (some 5)).2.2.1 rfl⟩

/-- Claim C1: when two or more invocations of an unloaded handler name reach
the dispatcher before its module load resolves, exactly one module load is
initiated (the host module map memoizes the dynamic import per specifier),
and every one of those invocations awaits that single in-flight load and
receives its result. -/
theorem dispatcher_single_flight (basePath n : String) (st : DispatchState) (k : Nat)
    (hT : st.target.lookup n = none)
    (hM : st.moduleMap.lookup (basePath ++ "/" ++ n ++ ".js") = none) :
    (iterGets basePath n (k + 2) st).1
        = List.replicate (k + 2) (GetResult.pending st.nextLoad) ∧
    (iterGets basePath n (k + 2) st).2.nextLoad = st.nextLoad + 1 ∧
    (∀ resolve : Nat → Nat, ∀ r ∈ (iterGets basePath n (k + 2) st).1,
      invokeResult resolve r = some (resolve st.nextLoad)) := by
  have hfirst := proxyGet_first basePath n st hT hM
  have hM1 : (setEntry (basePath ++ "/" ++ n ++ ".js") st.nextLoad st.moduleMap).lookup
      (basePath ++ "/" ++ n ++ ".js") = some st.nextLoad :=
    lookup_setEntry_self _ _ _
  have hrest := iterGets_steady basePath n (k + 1)
    { st with
        moduleMap := setEntry (basePath ++ "/" ++ n ++ ".js") st.nextLoad st.moduleMap
        nextLoad := st.nextLoad + 1 } st.nextLoad hT hM1
  have hall : iterGets basePath n (k + 2) st
      = (GetResult.pending st.nextLoad
            :: List.replicate (k + 1) (GetResult.pending st.nextLoad),
         { st with
             moduleMap := setEntry (basePath ++ "/" ++ n ++ ".js") st.nextLoad st.moduleMap
             nextLoad := st.nextLoad + 1 }) := by
    rw [show k + 2 = (k + 1) + 1 from rfl, iterGets_succ, hfirst]
    dsimp only
    rw [hrest]
  refine ⟨?_, ?_, ?_⟩
  · rw [hall]
    rfl
  · rw [hall]
  · intro resolve r hr
    rw [hall] at hr
    simp only [List.mem_cons, List.mem_replicate] at hr
    rcases hr with h | ⟨-, h⟩ <;> rw [h] <;> rfl

theorem dispatcher_single_flight_witness :
    ((⟨[], [], 0⟩ : DispatchState).target.lookup "h" = none) ∧
    ((⟨[], [], 0⟩ : DispatchState).moduleMap.lookup ("." ++ "/" ++ "h" ++ ".js") = none) ∧
    ((iterGets "." "h" (0 + 2) ⟨[], [], 0⟩).1
      = List.replicate (0 + 2)
          (GetResult.pending (⟨[], [], 0⟩ : DispatchState).nextLoad)) :=
  ⟨rfl, rfl, (dispatcher_single_flight "." "h" ⟨[], [], 0⟩ 0 rfl rfl).1⟩

end ClientFunctions
